import Mathlib

/-!
Shallow embedding of the monitoring dashboard service (src/main.rs):
a host-and-container observability snapshot server.  Pure fragments of the
Rust code (formatting, filtering, arithmetic) are translated directly;
effectful queries (sysinfo refreshes, Docker IPC, /proc reads, TCP probes)
become explicit inputs carrying the outcome the runtime would have
delivered, with `Except`/`Option` for the fallible ones.  Machine integers
(`u64`) are modelled as `Nat`, with an explicit `% 2^64` where the Rust
arithmetic could wrap; `f32`/`f64` values that flow through untouched are
modelled as `ℚ`.
-/

namespace Monitoring

/-- Output record `ProcessInfo` of main.rs. -/
structure ProcessInfo where
  name : String
  ram_mb : Nat
deriving DecidableEq

/-- Output record `DiskInfo` of main.rs. -/
structure DiskInfo where
  name : String
  mount_point : String
  total_gb : Nat
  used_gb : Nat
deriving DecidableEq

/-- Output record `ContainerInfo` of main.rs. -/
structure ContainerInfo where
  name : String
  status : String
  state : String
  ports : String
deriving DecidableEq

/-- Output record `ImageInfo` of main.rs (`size_gb: f64` modelled as `ℚ`). -/
structure ImageInfo where
  repo : String
  tag : String
  id : String
  size_gb : ℚ
  in_use : Bool
deriving DecidableEq

/-- Output record `NetworkInfo` of main.rs. -/
structure NetworkInfo where
  name : String
  rx_bytes : Nat
  tx_bytes : Nat
deriving DecidableEq

/-- Root response object `FullStatus` of main.rs (floats as `ℚ`). -/
structure FullStatus where
  cpu_usage : ℚ
  ram_used_mb : Nat
  ram_total_mb : Nat
  swap_used_mb : Nat
  swap_total_mb : Nat
  uptime_secs : Nat
  load_avg : ℚ × ℚ × ℚ
  internet_latency_ms : ℚ
  networks : List NetworkInfo
  processes : List ProcessInfo
  sensors : List (String × ℚ)
  disks : List DiskInfo
  containers : List ContainerInfo
  images : List ImageInfo

/-! ### Reachability probe (`measure_latency`) -/

/-- Embedding of `measure_latency`.  The two TCP connection attempts are
inputs: `some t` means the attempt succeeded with `t` seconds elapsed on the
wall clock since `start` (the Rust code multiplies `as_secs_f64()` by 1000
to report milliseconds); `none` means the attempt failed.  If the primary
succeeds the fallback is never attempted; if both fail the result is 0. -/
def measure_latency (primary fallback : Option ℚ) : ℚ :=
  match primary with
  | some t => t * 1000
  | none =>
    match fallback with
    | some t => t * 1000
    | none => 0

/-! ### Process scanner (`get_top_ram_processes`) -/

/-- ASCII whitespace test used to embed Rust `split_whitespace`/`trim`
(the /proc pseudo-files involved contain only ASCII). -/
def isWs (c : Char) : Bool :=
  c = ' ' || c = '\t' || c = '\n' || c = '\r'

def splitWsAux : List Char → List Char → List (List Char)
  | [], acc => if acc = [] then [] else [acc.reverse]
  | c :: cs, acc =>
    if isWs c then
      if acc = [] then splitWsAux cs [] else acc.reverse :: splitWsAux cs []
    else splitWsAux cs (c :: acc)

/-- Embedding of `str::split_whitespace().collect::<Vec<_>>()`: maximal runs
of non-whitespace characters, empty runs skipped. -/
def splitWhitespace (s : String) : List String :=
  (splitWsAux s.data []).map String.mk

def digitsValAux : List Char → Nat → Option Nat
  | [], acc => some acc
  | c :: cs, acc =>
    if c.isDigit then digitsValAux cs (acc * 10 + (c.toNat - 48)) else none

/-- Embedding of `str::parse::<u64>()`: an optional leading '+', then one or
more ASCII digits, rejected on overflow past `u64`. -/
def parseU64 (s : String) : Option Nat :=
  let l :=
    match s.data with
    | '+' :: rest => rest
    | l => l
  match l with
  | [] => none
  | _ =>
    match digitsValAux l 0 with
    | none => none
    | some v => if v < 2 ^ 64 then some v else none

/-- Embedding of `str::trim` (ASCII whitespace, see `isWs`). -/
def trimStr (s : String) : String :=
  ⟨((s.data.dropWhile (isWs ·)).reverse.dropWhile (isWs ·)).reverse⟩

/-- One `/proc` directory entry as the scan loop observes it:
the `entry.metadata()` result (`some is_dir` when `Ok`), the file name, and
the contents of the `statm` and `comm` pseudo-files when readable. -/
structure ProcEntry where
  meta_is_dir : Option Bool
  file_name : String
  statm : Option String
  comm : Option String
deriving DecidableEq

/-- The body of the `get_top_ram_processes` loop for one entry: `none` when
the entry is skipped (non-directory, non-numeric name, unreadable or
malformed `statm`, or at most 10 MB resident), `some info` when it is pushed.
`ram_mb = resident_pages * 4096 / 1024 / 1024` with the multiplication
wrapping as `u64`. -/
def procEntryInfo (e : ProcEntry) : Option ProcessInfo :=
  if e.meta_is_dir = some false then none
  else if ¬ e.file_name.data.all Char.isDigit then none
  else
    match e.statm with
    | none => none
    | some statm =>
      match (splitWhitespace statm).get? 1 with
      | none => none
      | some resident_str =>
        match parseU64 resident_str with
        | none => none
        | some resident_pages =>
          let ram_mb := resident_pages * 4096 % 2 ^ 64 / 1024 / 1024
          if ram_mb > 10 then
            some { name :=
                     match e.comm with
                     | some comm => trimStr comm
                     | none => "unknown",
                   ram_mb := ram_mb }
          else none

/-- Insert into a list sorted non-increasing by `ram_mb`, after every element
with an equal or larger key. -/
def insertDesc (p : ProcessInfo) : List ProcessInfo → List ProcessInfo
  | [] => [p]
  | q :: rest =>
    if q.ram_mb < p.ram_mb then p :: q :: rest else q :: insertDesc p rest

/-- Stable sort, non-increasing by `ram_mb`; embeds
`procs.sort_by(|a, b| b.ram_mb.cmp(&a.ram_mb))` (Rust's `sort_by` is stable,
and any stable sort under the same key order yields the same list). -/
def sortDesc : List ProcessInfo → List ProcessInfo
  | [] => []
  | p :: rest => insertDesc p (sortDesc rest)

/-- Embedding of `get_top_ram_processes`, over the observed `/proc` entries:
filter-and-convert each entry, sort descending by resident MB, keep 3. -/
def get_top_ram_processes (entries : List ProcEntry) : List ProcessInfo :=
  ((entries.filterMap procEntryInfo) |> sortDesc).take 3

/-! ### Disks -/

/-- `u64` subtraction as Rust release mode computes it (wrapping). -/
def u64sub (a b : Nat) : Nat := (a + 2 ^ 64 - b) % 2 ^ 64

/-- One disk as reported by the provider: total and available space in
bytes. -/
structure DiskRaw where
  name : String
  mount_point : String
  total : Nat
  available : Nat
deriving DecidableEq

/-- The per-disk conversion in `get_full_status`:
`total_gb = total / 1024 / 1024 / 1024`,
`used_gb = (total - available) / 1024 / 1024 / 1024`. -/
def mkDiskInfo (d : DiskRaw) : DiskInfo :=
  { name := d.name
    mount_point := d.mount_point
    total_gb := d.total / 1024 / 1024 / 1024
    used_gb := u64sub d.total d.available / 1024 / 1024 / 1024 }

/-! ### Container inventory -/

/-- One port binding as Docker reports it (`public_port: Option<u16>`,
`private_port: u16`, plus the protocol, which main.rs never reads). -/
structure PortBinding where
  public_port : Option Nat
  private_port : Nat
  typ : Option String
deriving DecidableEq

/-- Embedding of `Vec::join(sep)`. -/
def joinSep (sep : String) : List String → String
  | [] => ""
  | [a] => a
  | a :: rest => a ++ sep ++ joinSep sep rest

/-- The port summary built in the container loop: the `", "`-joined
`"{public}:{private}"` pairs over the bindings that have a public port,
`"-"` when that string is empty. -/
def portSummary (ports : List PortBinding) : String :=
  let port_info :=
    joinSep ", "
      (ports.filterMap fun p =>
        p.public_port.map fun pub =>
          toString pub ++ ":" ++ toString p.private_port)
  if port_info = "" then "-" else port_info

/-- Embedding of `.join("").replace("/", "")` on the alias list: joining
with no separator, then removing every occurrence of the one-character
pattern `"/"` (which is exactly a character filter). -/
def containerName (names : List String) : String :=
  ⟨(String.join names).data.filter (fun c => c ≠ '/')⟩

/-- One container as Docker lists it (the fields main.rs reads, each
optional as in the bollard API). -/
structure ContainerSummary where
  names : Option (List String)
  image_id : Option String
  status : Option String
  state : Option String
  ports : Option (List PortBinding)
deriving DecidableEq

/-- The `ContainerInfo` pushed for one listed container. -/
def buildContainerInfo (c : ContainerSummary) : ContainerInfo :=
  { name := containerName (c.names.getD [])
    status := c.status.getD ""
    state := c.state.getD ""
    ports := portSummary (c.ports.getD []) }

/-- The image-identifier set collected in the container loop: every
`image_id` that is present. -/
def usedImageIds (cs : List ContainerSummary) : List String :=
  cs.filterMap fun c => c.image_id

/-! ### Images -/

/-- Embedding of Rust `str::split(sep)` on the character list: the maximal
pieces between separator occurrences (never empty as a list; an empty input
yields one empty piece). -/
def splitCh (sep : Char) : List Char → List (List Char)
  | [] => [[]]
  | c :: cs =>
    match splitCh sep cs with
    | [] => [[]]
    | h :: t => if c = sep then [] :: h :: t else (c :: h) :: t

/-- One image as Docker lists it: its repo:tag references, its full
content identifier, and its size in bytes (`i64`). -/
structure ImageSummary where
  repo_tags : List String
  id : String
  size : Int
deriving DecidableEq

/-- UTF-8 byte length of a character list. -/
def utf8Len : List Char → Nat
  | [] => 0
  | c :: cs => c.utf8Size + utf8Len cs

/-- Characters after byte position `n`: `some` suffix when `n` is a
character boundary within the string, `none` otherwise. -/
def dropBytes : List Char → Nat → Option (List Char)
  | l, 0 => some l
  | [], _ + 1 => none
  | c :: cs, n + 1 =>
    if c.utf8Size ≤ n + 1 then dropBytes cs (n + 1 - c.utf8Size) else none

/-- Characters occupying exactly the first `n` bytes: `some` prefix when `n`
is a character boundary within the string, `none` otherwise. -/
def takeBytes : List Char → Nat → Option (List Char)
  | _, 0 => some []
  | [], _ + 1 => none
  | c :: cs, n + 1 =>
    if c.utf8Size ≤ n + 1 then (takeBytes cs (n + 1 - c.utf8Size)).map (c :: ·)
    else none

/-- Embedding of Rust `str::get(a..b)` for a byte range: `some` slice when
both bounds are character boundaries inside the string (and `a ≤ b`),
`none` otherwise — the non-panicking guarded slice. -/
def strGetRange (s : String) (a b : Nat) : Option String :=
  if a ≤ b then
    (dropBytes s.data a).bind fun rest =>
      (takeBytes rest (b - a)).map String.mk
  else none

/-- The short display identifier: `img.id.get(7..19).unwrap_or("unknown")`. -/
def imageShortId (id : String) : String :=
  (strGetRange id 7 19).getD "unknown"

/-- The `ImageInfo` pushed for one listed image, given the
container-referenced identifier set `used`:
`repo_tag = repo_tags.first().unwrap_or("none:none")` split on `':'`,
`repo = parts.get(0).unwrap_or("unknown")`,
`tag = parts.get(1).unwrap_or("latest")`. -/
def buildImageInfo (used : List String) (img : ImageSummary) : ImageInfo :=
  let repo_tag := img.repo_tags.head?.getD "none:none"
  let parts := (splitCh ':' repo_tag.data).map String.mk
  { repo := (parts.get? 0).getD "unknown"
    tag := (parts.get? 1).getD "latest"
    id := imageShortId img.id
    size_gb := (img.size : ℚ) / 1024 / 1024 / 1024
    in_use := used.contains img.id }

/-! ### Snapshot aggregator (`get_full_status`) -/

/-- Everything one request observes from its effectful sources, as
`get_full_status` consumes it: the refreshed hardware numbers (bytes, not
yet divided), the fresh sensor/disk/network enumerations, the two probe
attempts, the joined blocking scan (`Except` for a `JoinError`), and the two
Docker queries (`Except` for an IPC failure). -/
structure StatusInputs where
  cpu_usage : ℚ
  ram_used_bytes : Nat
  ram_total_bytes : Nat
  swap_used_bytes : Nat
  swap_total_bytes : Nat
  uptime_secs : Nat
  load_avg : ℚ × ℚ × ℚ
  sensors : List (String × ℚ)
  disks : List DiskRaw
  networks : List NetworkInfo
  latency_primary : Option ℚ
  latency_fallback : Option ℚ
  proc_scan : Except Unit (List ProcEntry)
  container_list : Except Unit (List ContainerSummary)
  image_list : Except Unit (List ImageSummary)

/-- Embedding of the `get_full_status` handler body: memory converted to MB
by truncating division, disks converted per `mkDiskInfo`, the probe result,
the joined scan (`unwrap_or_default` on a join failure), and the two Docker
loops — a failed `list_containers` leaves `containers` and the used-id set
empty, a failed `list_images` leaves `images` empty; every field of the
response is always populated. -/
def get_full_status (inp : StatusInputs) : FullStatus :=
  let containers :=
    match inp.container_list with
    | .ok list => list.map buildContainerInfo
    | .error _ => []
  let used :=
    match inp.container_list with
    | .ok list => usedImageIds list
    | .error _ => []
  let images :=
    match inp.image_list with
    | .ok list => list.map (buildImageInfo used)
    | .error _ => []
  { cpu_usage := inp.cpu_usage
    ram_used_mb := inp.ram_used_bytes / 1024 / 1024
    ram_total_mb := inp.ram_total_bytes / 1024 / 1024
    swap_used_mb := inp.swap_used_bytes / 1024 / 1024
    swap_total_mb := inp.swap_total_bytes / 1024 / 1024
    uptime_secs := inp.uptime_secs
    load_avg := inp.load_avg
    internet_latency_ms := measure_latency inp.latency_primary inp.latency_fallback
    networks := inp.networks
    processes :=
      match inp.proc_scan with
      | .ok entries => get_top_ram_processes entries
      | .error _ => []
    sensors := inp.sensors
    disks := inp.disks.map mkDiskInfo
    containers := containers
    images := images }

/-! ### Log retriever (`get_container_logs`) -/

/-- The `while let Some(Ok(log))` accumulation: concatenate stream items in
arrival order, stopping at the first error (or the end). -/
def collectLogs : List (Except Unit String) → String
  | [] => ""
  | .ok s :: rest => s ++ collectLogs rest
  | .error _ :: _ => ""

/-- Embedding of the `get_container_logs` handler over the log stream the
runtime delivers for `name` (already bounded by the 30-minute window and
100-line tail in the query options): the concatenated text, or the fixed
placeholder when it is empty. -/
def get_container_logs (name : String) (stream : List (Except Unit String)) :
    String :=
  let output := collectLogs stream
  if output = "" then "No logs in last 30m." else output

/-! ## Theorems -/

/-- C1: If the container-runtime query for containers or images fails for a
request, the /api/status response still succeeds: `containers` and `images`
are empty lists, and every other snapshot field is exactly what it would
have been for the same request with any container/image query outcome — no
sub-source failure aborts the overall response. -/
theorem container_runtime_failure_isolated (inp : StatusInputs)
    (cl : Except Unit (List ContainerSummary))
    (il : Except Unit (List ImageSummary)) :
    (get_full_status
        { inp with container_list := .error (), image_list := .error () }).containers = [] ∧
    (get_full_status
        { inp with container_list := .error (), image_list := .error () }).images = [] ∧
    ((get_full_status
        { inp with container_list := .error (), image_list := .error () }).cpu_usage =
      (get_full_status { inp with container_list := cl, image_list := il }).cpu_usage ∧
    (get_full_status
        { inp with container_list := .error (), image_list := .error () }).ram_used_mb =
      (get_full_status { inp with container_list := cl, image_list := il }).ram_used_mb ∧
    (get_full_status
        { inp with container_list := .error (), image_list := .error () }).ram_total_mb =
      (get_full_status { inp with container_list := cl, image_list := il }).ram_total_mb ∧
    (get_full_status
        { inp with container_list := .error (), image_list := .error () }).swap_used_mb =
      (get_full_status { inp with container_list := cl, image_list := il }).swap_used_mb ∧
    (get_full_status
        { inp with container_list := .error (), image_list := .error () }).swap_total_mb =
      (get_full_status { inp with container_list := cl, image_list := il }).swap_total_mb ∧
    (get_full_status
        { inp with container_list := .error (), image_list := .error () }).uptime_secs =
      (get_full_status { inp with container_list := cl, image_list := il }).uptime_secs ∧
    (get_full_status
        { inp with container_list := .error (), image_list := .error () }).load_avg =
      (get_full_status { inp with container_list := cl, image_list := il }).load_avg ∧
    (get_full_status
        { inp with container_list := .error (), image_list := .error () }).internet_latency_ms =
      (get_full_status { inp with container_list := cl, image_list := il }).internet_latency_ms ∧
    (get_full_status
        { inp with container_list := .error (), image_list := .error () }).networks =
      (get_full_status { inp with container_list := cl, image_list := il }).networks ∧
    (get_full_status
        { inp with container_list := .error (), image_list := .error () }).processes =
      (get_full_status { inp with container_list := cl, image_list := il }).processes ∧
    (get_full_status
        { inp with container_list := .error (), image_list := .error () }).sensors =
      (get_full_status { inp with container_list := cl, image_list := il }).sensors ∧
    (get_full_status
        { inp with container_list := .error (), image_list := .error () }).disks =
      (get_full_status { inp with container_list := cl, image_list := il }).disks) := by
  refine ⟨rfl, rfl, rfl, rfl, rfl, rfl, rfl, rfl, rfl, rfl, rfl, rfl, rfl, rfl⟩

/-- C3: for every disk, `used_gb ≤ total_gb` and both are non-negative,
with `total_gb` the total bytes floor-divided to GB and `used_gb` the
difference total − available floor-divided to GB; the 500 GB/200 GB-available
disk reports `used_gb = 300` and the 100 GB/100 GB-available disk reports
`used_gb = 0`. -/
theorem disk_used_le_total :
    (∀ d : DiskRaw, d.available ≤ d.total → d.total < 2 ^ 64 →
      0 ≤ (mkDiskInfo d).used_gb ∧ (mkDiskInfo d).used_gb ≤ (mkDiskInfo d).total_gb) ∧
    (mkDiskInfo ⟨"sda", "/", 500 * 1024 ^ 3, 200 * 1024 ^ 3⟩).total_gb = 500 ∧
    (mkDiskInfo ⟨"sda", "/", 500 * 1024 ^ 3, 200 * 1024 ^ 3⟩).used_gb = 300 ∧
    (mkDiskInfo ⟨"sdb", "/data", 100 * 1024 ^ 3, 100 * 1024 ^ 3⟩).total_gb = 100 ∧
    (mkDiskInfo ⟨"sdb", "/data", 100 * 1024 ^ 3, 100 * 1024 ^ 3⟩).used_gb = 0 := by
  refine ⟨?_, by decide, by decide, by decide, by decide⟩
  intro d h1 h2
  refine ⟨Nat.zero_le _, ?_⟩
  have hs : u64sub d.total d.available = d.total - d.available := by
    unfold u64sub
    have h3 : d.total + 2 ^ 64 - d.available = 2 ^ 64 + (d.total - d.available) := by
      omega
    rw [h3, Nat.add_mod_left, Nat.mod_eq_of_lt (by omega)]
  show u64sub d.total d.available / 1024 / 1024 / 1024 ≤ d.total / 1024 / 1024 / 1024
  rw [hs]
  exact Nat.div_le_div_right (Nat.div_le_div_right (Nat.div_le_div_right
    (Nat.sub_le _ _)))

/-- Witness for C3 at the spec's 500 GB / 200 GB-available disk. -/
theorem disk_used_le_total_witness :
    0 ≤ (mkDiskInfo ⟨"sda", "/", 500 * 1024 ^ 3, 200 * 1024 ^ 3⟩).used_gb ∧
    (mkDiskInfo ⟨"sda", "/", 500 * 1024 ^ 3, 200 * 1024 ^ 3⟩).used_gb ≤
      (mkDiskInfo ⟨"sda", "/", 500 * 1024 ^ 3, 200 * 1024 ^ 3⟩).total_gb :=
  disk_used_le_total.1 ⟨"sda", "/", 500 * 1024 ^ 3, 200 * 1024 ^ 3⟩
    (by norm_num) (by norm_num)

/-- C5: the probe result is 0 when both connection attempts fail, positive
when either succeeds (the elapsed wall-clock time around a completed
handshake being positive), and never negative. -/
theorem latency_zero_or_positive :
    measure_latency none none = 0 ∧
    (∀ p f : Option ℚ, (∀ t ∈ p, 0 ≤ t) → (∀ t ∈ f, 0 ≤ t) →
      0 ≤ measure_latency p f) ∧
    (∀ (t : ℚ) (f : Option ℚ), 0 < t → 0 < measure_latency (some t) f) ∧
    (∀ t : ℚ, 0 < t → 0 < measure_latency none (some t)) := by
  refine ⟨rfl, ?_, ?_, ?_⟩
  · intro p f hp hf
    cases p with
    | some t =>
      have := hp t (by simp)
      show (0 : ℚ) ≤ t * 1000
      positivity
    | none =>
      cases f with
      | some t =>
        have := hf t (by simp)
        show (0 : ℚ) ≤ t * 1000
        positivity
      | none => exact le_refl 0
  · intro t f ht
    show (0 : ℚ) < t * 1000
    positivity
  · intro t ht
    show (0 : ℚ) < t * 1000
    positivity

/-- Witness for C5: a successful primary probe taking 5 ms reports a
positive latency, and the all-failure case is non-negative. -/
theorem latency_zero_or_positive_witness :
    0 < measure_latency (some 5) none ∧ 0 ≤ measure_latency none none :=
  ⟨latency_zero_or_positive.2.2.1 5 none (by norm_num),
   latency_zero_or_positive.2.1 none none (by simp) (by simp)⟩

theorem mem_insertDesc {a p : ProcessInfo} :
    ∀ {l : List ProcessInfo}, a ∈ insertDesc p l ↔ a = p ∨ a ∈ l := by
  intro l
  induction l with
  | nil => simp [insertDesc]
  | cons q rest ih =>
    simp only [insertDesc]
    split
    · simp [List.mem_cons]
    · simp only [List.mem_cons, ih]
      tauto

theorem pairwise_insertDesc {p : ProcessInfo} {l : List ProcessInfo}
    (h : l.Pairwise (fun a b => b.ram_mb ≤ a.ram_mb)) :
    (insertDesc p l).Pairwise (fun a b => b.ram_mb ≤ a.ram_mb) := by
  induction l with
  | nil => simp [insertDesc]
  | cons q rest ih =>
    rw [List.pairwise_cons] at h
    obtain ⟨hq, hrest⟩ := h
    simp only [insertDesc]
    split
    · rename_i hlt
      refine List.pairwise_cons.mpr ⟨?_, List.pairwise_cons.mpr ⟨hq, hrest⟩⟩
      intro x hx
      rcases List.mem_cons.mp hx with h1 | h2
      · subst h1; omega
      · have := hq x h2; omega
    · rename_i hnlt
      refine List.pairwise_cons.mpr ⟨?_, ih hrest⟩
      intro x hx
      rcases mem_insertDesc.mp hx with h1 | h2
      · subst h1; omega
      · exact hq x h2

theorem pairwise_sortDesc (l : List ProcessInfo) :
    (sortDesc l).Pairwise (fun a b => b.ram_mb ≤ a.ram_mb) := by
  induction l with
  | nil => simp [sortDesc]
  | cons p rest ih =>
    simp only [sortDesc]
    exact pairwise_insertDesc ih

theorem mem_sortDesc {a : ProcessInfo} :
    ∀ {l : List ProcessInfo}, a ∈ sortDesc l ↔ a ∈ l := by
  intro l
  induction l with
  | nil => simp [sortDesc]
  | cons p rest ih => simp [sortDesc, mem_insertDesc, ih]

theorem procEntryInfo_ram_gt {e : ProcEntry} {p : ProcessInfo}
    (h : procEntryInfo e = some p) : 10 < p.ram_mb := by
  simp only [procEntryInfo] at h
  split at h
  · exact absurd h (by simp)
  · split at h
    · exact absurd h (by simp)
    · split at h
      · exact absurd h (by simp)
      · split at h
        · exact absurd h (by simp)
        · split at h
          · exact absurd h (by simp)
          · split at h
            · rename_i hgt
              rw [Option.some.injEq] at h
              subst h
              exact hgt
            · exact absurd h (by simp)

/-- C2: for every possible process table, the scan's result has length at
most 3, is sorted non-increasing by `ram_mb`, and contains no entry whose
resident memory is below the 10 MB floor (the scan in fact keeps only
entries strictly above 10 MB). -/
theorem processes_top3_sorted_floor (entries : List ProcEntry) :
    (get_top_ram_processes entries).length ≤ 3 ∧
    (get_top_ram_processes entries).Pairwise (fun a b => b.ram_mb ≤ a.ram_mb) ∧
    ∀ p ∈ get_top_ram_processes entries, ¬ p.ram_mb < 10 := by
  refine ⟨?_, ?_, ?_⟩
  · simp only [get_top_ram_processes, List.length_take]
    exact Nat.min_le_left _ _
  · exact List.Pairwise.sublist (List.take_sublist _ _) (pairwise_sortDesc _)
  · intro p hp
    have h1 := List.mem_of_mem_take hp
    rw [mem_sortDesc] at h1
    obtain ⟨e, _, heq⟩ := List.mem_filterMap.mp h1
    have := procEntryInfo_ram_gt heq
    omega

/-- Witness for C2: a single-entry /proc table whose one process holds
15000 resident pages (58 MB) yields an entry that is not below the floor. -/
theorem processes_top3_sorted_floor_witness :
    ¬ (ProcessInfo.mk "foo" 58).ram_mb < 10 :=
  (processes_top3_sorted_floor
      [⟨some true, "42", some "20000 15000 100", some "foo"⟩]).2.2
    ⟨"foo", 58⟩ (by decide)

/-- C4: an image entry's `in_use` flag is true iff at least one container
listed in the same request reports an image identifier equal to this
image's full identifier. -/
theorem image_in_use_iff (cs : List ContainerSummary) (img : ImageSummary) :
    ((buildImageInfo (usedImageIds cs) img).in_use = true ↔
      ∃ c ∈ cs, c.image_id = some img.id) := by
  show (usedImageIds cs).contains img.id = true ↔ _
  rw [List.contains_iff_exists_mem_beq]
  constructor
  · rintro ⟨x, hx, hbeq⟩
    obtain ⟨c, hc, heq⟩ := List.mem_filterMap.mp hx
    exact ⟨c, hc, by rw [heq, beq_iff_eq.mp hbeq]⟩
  · rintro ⟨c, hc, heq⟩
    exact ⟨img.id, List.mem_filterMap.mpr ⟨c, hc, heq⟩, beq_iff_eq.mpr rfl⟩

/-- C6 counterexample: for container "web" with no log output in the
window, the response is the fixed placeholder "No logs in last 30m.",
which does not contain the container's name — the claim that the
placeholder names the container is false. -/
theorem log_placeholder_lacks_container_name :
    get_container_logs "web" [] = "No logs in last 30m." ∧
    ¬ ("web".data <:+: (get_container_logs "web" []).data) := by
  constructor
  · rfl
  · decide

/-- C6 amended: when the bounded log retrieval yields no lines, the
response body is the fixed human-readable placeholder "No logs in last
30m." — it names the lookback window but not the container — and the
response is never the empty string (returned as success). -/
theorem log_placeholder_nonempty (name : String)
    (stream : List (Except Unit String)) :
    get_container_logs name stream ≠ "" ∧
    (collectLogs stream = "" →
      get_container_logs name stream = "No logs in last 30m.") := by
  simp only [get_container_logs]
  constructor
  · split
    · decide
    · assumption
  · intro h
    rw [if_pos h]

/-- Witness for C6 (amended) at container "web" with an empty stream. -/
theorem log_placeholder_nonempty_witness :
    get_container_logs "web" [] ≠ "" ∧
    get_container_logs "web" [] = "No logs in last 30m." :=
  ⟨(log_placeholder_nonempty "web" []).1, (log_placeholder_nonempty "web" []).2 rfl⟩

/-- The claim's reading of the display-name derivation (reference
definition from the spec's words): join the aliases, then strip only a
leading path-separator character. -/
def specNameLeadingOnly (names : List String) : String :=
  match (String.join names).data with
  | '/' :: rest => String.mk rest
  | l => String.mk l

/-- C7 counterexample: the code removes every "/" (via
`replace("/", "")`), not only a leading one — a container whose joined
runtime name is "/a/b" is reported as "ab", while stripping only the
leading separator would give "a/b". -/
theorem container_name_not_leading_only :
    containerName ["/a/b"] = "ab" ∧
    specNameLeadingOnly ["/a/b"] = "a/b" ∧
    containerName ["/a/b"] ≠ specNameLeadingOnly ["/a/b"] := by
  refine ⟨by decide, by decide, by decide⟩

/-- C7 amended: the display name is the join of the container's name
aliases with every path-separator character removed (not only a leading
one); in particular a container named "/web" is reported as "web". -/
theorem container_name_removes_separators (names : List String) :
    (∀ c ∈ (containerName names).data, c ≠ '/') ∧
    containerName ["/web"] = "web" := by
  constructor
  · intro c hc
    have : c ∈ (String.join names).data.filter (fun c => c ≠ '/') := hc
    simpa using (List.mem_filter.mp this).2
  · decide

/-- Witness for C7 (amended) at the spec's "/web" container. -/
theorem container_name_removes_separators_witness :
    'w' ≠ '/' ∧ containerName ["/web"] = "web" :=
  ⟨(container_name_removes_separators ["/web"]).1 'w' (by decide),
   (container_name_removes_separators ["/web"]).2⟩

theorem colon_mem_pair (a b : Nat) :
    ':' ∈ (toString a ++ ":" ++ toString b).data := by
  have h : (toString a ++ ":" ++ toString b).data
      = (toString a).data ++ [':'] ++ (toString b).data := by
    rw [String.data_append, String.data_append]
  rw [h]
  simp

/-- C8 counterexample: a container with one binding 8080→80/tcp is
summarised as "8080:80" — the protocol is not part of the summary. -/
theorem ports_summary_omits_protocol :
    portSummary [⟨some 8080, 80, some "tcp"⟩] = "8080:80" ∧
    ¬ ("tcp".data <:+: (portSummary [⟨some 8080, 80, some "tcp"⟩]).data) := by
  constructor
  · decide
  · decide

/-- C8 amended: the ports field is the ", "-joined list of
"public:private" pairs over exactly the bindings that have a public port
(without the protocol), and it is the placeholder "-" precisely when the
container has no public port bindings. -/
theorem ports_summary_dash_iff (ports : List PortBinding) :
    (portSummary ports = "-" ↔ ∀ p ∈ ports, p.public_port = none) ∧
    portSummary [⟨some 8080, 80, some "tcp"⟩] = "8080:80" := by
  refine ⟨?_, by decide⟩
  simp only [portSummary]
  cases hL : ports.filterMap
      (fun p => p.public_port.map
        (fun pub => toString pub ++ ":" ++ toString p.private_port)) with
  | nil =>
    simp only [hL, joinSep, if_pos rfl]
    constructor
    · intro _
      intro p hp
      have := List.filterMap_eq_nil_iff.mp hL p hp
      simpa using this
    · intro _
      rfl
  | cons s t =>
    have hs : s ∈ ports.filterMap
        (fun p => p.public_port.map
          (fun pub => toString pub ++ ":" ++ toString p.private_port)) := by
      rw [hL]; exact List.mem_cons_self _ _
    obtain ⟨p, hp, hfp⟩ := List.mem_filterMap.mp hs
    obtain ⟨pub, hpub, hsval⟩ := Option.map_eq_some'.mp hfp
    have hcolon : ':' ∈ s.data := by
      rw [← hsval]; exact colon_mem_pair pub p.private_port
    have hcolonJoin : ':' ∈ (joinSep ", " (s :: t)).data := by
      cases t with
      | nil => simpa [joinSep] using hcolon
      | cons u v =>
        simp only [joinSep, String.data_append, List.mem_append]
        tauto
    have hne : joinSep ", " (s :: t) ≠ "" := by
      intro hempty
      rw [hempty] at hcolonJoin
      simp at hcolonJoin
    have hnd : joinSep ", " (s :: t) ≠ "-" := by
      intro hdash
      rw [hdash] at hcolonJoin
      simp at hcolonJoin
    rw [if_neg hne]
    constructor
    · intro hdash
      exact absurd hdash hnd
    · intro hall
      exfalso
      have hnil : ports.filterMap
          (fun p => p.public_port.map
            (fun pub => toString pub ++ ":" ++ toString p.private_port)) = [] :=
        List.filterMap_eq_nil_iff.mpr (fun q hq => by rw [hall q hq]; rfl)
      rw [hL] at hnil
      exact List.cons_ne_nil _ _ hnil

/-- Witness for C8 (amended): a container with no port bindings gets the
placeholder "-". -/
theorem ports_summary_dash_iff_witness :
    portSummary [] = "-" :=
  (ports_summary_dash_iff []).1.mpr (fun p hp => absurd hp (by simp))

theorem splitCh_eq_single {sep : Char} :
    ∀ {l : List Char}, sep ∉ l → splitCh sep l = [l] := by
  intro l
  induction l with
  | nil => intro _; rfl
  | cons c cs ih =>
    intro h
    simp only [List.mem_cons, not_or] at h
    obtain ⟨h1, h2⟩ := h
    simp only [splitCh, ih h2]
    rw [if_neg (fun hc => h1 hc.symm)]

/-- C9 counterexample: an image with no repo:tag references gets the
placeholder "none:none", so its tag is "none", not the claimed default
"latest". -/
theorem image_tag_no_refs_is_none :
    (buildImageInfo [] ⟨[], "sha256:0123456789abcdef", 0⟩).tag = "none" ∧
    (buildImageInfo [] ⟨[], "sha256:0123456789abcdef", 0⟩).tag ≠ "latest" := by
  refine ⟨by decide, by decide⟩

/-- C9 amended: the tag is the second ":"-separated component of the
image's first repo:tag reference and defaults to "latest" when that
reference has no second component; when the image has no references at
all, the placeholder reference "none:none" is used instead, so repo and
tag are both "none" (not "latest"). -/
theorem image_tag_defaults (used : List String) (img : ImageSummary) :
    (img.repo_tags = [] →
      (buildImageInfo used img).repo = "none" ∧
      (buildImageInfo used img).tag = "none") ∧
    (∀ rt rest, img.repo_tags = rt :: rest → ':' ∉ rt.data →
      (buildImageInfo used img).tag = "latest") ∧
    (buildImageInfo used ⟨["nginx:latest"], "sha256:0123456789abcdef", 0⟩).tag
      = "latest" ∧
    (buildImageInfo used ⟨["nginx:latest"], "sha256:0123456789abcdef", 0⟩).repo
      = "nginx" := by
  refine ⟨?_, ?_, rfl, rfl⟩
  · intro h
    constructor
    · show (((splitCh ':' ((img.repo_tags.head?.getD "none:none").data)).map
          String.mk).get? 0).getD "unknown" = "none"
      rw [h]
      decide
    · show (((splitCh ':' ((img.repo_tags.head?.getD "none:none").data)).map
          String.mk).get? 1).getD "latest" = "none"
      rw [h]
      decide
  · intro rt rest h hcolon
    show (((splitCh ':' ((img.repo_tags.head?.getD "none:none").data)).map
        String.mk).get? 1).getD "latest" = "latest"
    rw [h]
    show (((splitCh ':' rt.data).map String.mk).get? 1).getD "latest" = "latest"
    rw [splitCh_eq_single hcolon]
    rfl

/-- Witness for C9 (amended): an image whose only reference is "nginx"
(no colon) gets tag "latest"; one with no references gets tag "none". -/
theorem image_tag_defaults_witness :
    (buildImageInfo [] ⟨[], "x", 0⟩).tag = "none" ∧
    (buildImageInfo [] ⟨["nginx"], "x", 0⟩).tag = "latest" :=
  ⟨((image_tag_defaults [] ⟨[], "x", 0⟩).1 rfl).2,
   (image_tag_defaults [] ⟨["nginx"], "x", 0⟩).2.1 "nginx" [] rfl (by decide)⟩

theorem dropBytes_utf8Len :
    ∀ (l : List Char) (n : Nat) (r : List Char),
      dropBytes l n = some r → utf8Len l = n + utf8Len r := by
  intro l
  induction l with
  | nil =>
    intro n r h
    cases n with
    | zero =>
      simp only [dropBytes, Option.some.injEq] at h
      subst h
      omega
    | succ m => simp [dropBytes] at h
  | cons c cs ih =>
    intro n r h
    cases n with
    | zero =>
      simp only [dropBytes, Option.some.injEq] at h
      subst h
      omega
    | succ m =>
      simp only [dropBytes] at h
      split at h
      · rename_i hle
        have := ih _ _ h
        simp only [utf8Len] at *
        omega
      · exact absurd h (by simp)

theorem takeBytes_none (l : List Char) :
    ∀ (n : Nat), utf8Len l < n → takeBytes l n = none := by
  induction l with
  | nil =>
    intro n h
    cases n with
    | zero => exact absurd h (by simp)
    | succ m => rfl
  | cons c cs ih =>
    intro n h
    cases n with
    | zero => exact absurd h (by simp)
    | succ m =>
      simp only [takeBytes]
      split
      · rename_i hle
        rw [ih _ (by simp only [utf8Len] at h; omega)]
        rfl
      · rfl

theorem dropBytes_ascii :
    ∀ (l : List Char) (n : Nat), (∀ c ∈ l, c.utf8Size = 1) →
      n ≤ l.length → dropBytes l n = some (l.drop n) := by
  intro l
  induction l with
  | nil =>
    intro n _ hn
    have : n = 0 := by simpa using hn
    subst this
    rfl
  | cons c cs ih =>
    intro n hall hn
    cases n with
    | zero => rfl
    | succ m =>
      have hc : c.utf8Size = 1 := hall c (List.mem_cons_self _ _)
      simp only [dropBytes, hc, if_pos (by omega : 1 ≤ m + 1)]
      have : m + 1 - 1 = m := by omega
      rw [this]
      rw [ih m (fun x hx => hall x (List.mem_cons_of_mem _ hx))
        (by simpa using Nat.le_of_succ_le_succ hn)]
      rfl

theorem takeBytes_ascii :
    ∀ (l : List Char) (n : Nat), (∀ c ∈ l, c.utf8Size = 1) →
      n ≤ l.length → takeBytes l n = some (l.take n) := by
  intro l
  induction l with
  | nil =>
    intro n _ hn
    have : n = 0 := by simpa using hn
    subst this
    rfl
  | cons c cs ih =>
    intro n hall hn
    cases n with
    | zero => rfl
    | succ m =>
      have hc : c.utf8Size = 1 := hall c (List.mem_cons_self _ _)
      simp only [takeBytes, hc, if_pos (by omega : 1 ≤ m + 1)]
      have : m + 1 - 1 = m := by omega
      rw [this]
      rw [ih m (fun x hx => hall x (List.mem_cons_of_mem _ hx))
        (by simpa using Nat.le_of_succ_le_succ hn)]
      rfl

/-- C10: the short identifier is the guarded byte-range slice [7, 19) of
the full identifier — `"unknown"` whenever the identifier is shorter than
19 bytes (so building an image entry never panics on a short identifier),
and the 12 characters after the 7-character scheme prefix when the
identifier is single-byte-encoded and long enough. -/
theorem image_short_id_guarded (id : String) :
    (utf8Len id.data < 19 → imageShortId id = "unknown") ∧
    ((∀ c ∈ id.data, c.utf8Size = 1) → 19 ≤ id.data.length →
      imageShortId id = String.mk ((id.data.drop 7).take 12)) := by
  constructor
  · intro h
    unfold imageShortId strGetRange
    rw [if_pos (by norm_num)]
    cases hd : dropBytes id.data 7 with
    | none => rfl
    | some rest =>
      have hlen := dropBytes_utf8Len _ _ _ hd
      show (Option.map String.mk (takeBytes rest (19 - 7))).getD "unknown"
        = "unknown"
      rw [takeBytes_none rest (19 - 7) (by omega)]
      rfl
  · intro hascii hlen
    unfold imageShortId strGetRange
    rw [if_pos (by norm_num)]
    rw [dropBytes_ascii id.data 7 hascii (by omega)]
    show (Option.map String.mk (takeBytes (id.data.drop 7) (19 - 7))).getD
        "unknown" = String.mk ((id.data.drop 7).take 12)
    rw [show (19 : Nat) - 7 = 12 from rfl]
    rw [takeBytes_ascii (id.data.drop 7) 12
      (fun x hx => hascii x (List.drop_subset _ _ hx))
      (by simp only [List.length_drop]; omega)]
    rfl

/-- Witness for C10: a 19-character single-byte identifier slices to its
last 12 characters; a 3-character identifier yields "unknown". -/
theorem image_short_id_guarded_witness :
    imageShortId "sha256:0123456789ab" = "0123456789ab" ∧
    imageShortId "abc" = "unknown" := by
  constructor
  · have := (image_short_id_guarded "sha256:0123456789ab").2
      (by decide) (by decide)
    rw [this]
    decide
  · exact (image_short_id_guarded "abc").1 (by decide)

end Monitoring
